import Mathlib

/-!
Shallow embedding of the locomotion / collision core of the crafty
repository (src/camera.rs, src/cubes_to_draw.rs, src/graphics/font.rs),
with the collaborator modules that camera.rs consumes (vector, gravity,
world) modelled from the specification where their sources are absent.
`f32` arithmetic is idealised as real-number arithmetic.
-/

set_option autoImplicit false

namespace Crafty

/-- Modelled from the spec: `Vector3` (src/vector.rs is not among the visible
sources). Three floating-point components `(x, y, z)` with component-wise
add/subtract and scalar multiply; camera.rs indexes component 1 (= y). -/
structure Vector3 where
  x : ℝ
  y : ℝ
  z : ℝ

instance : Add Vector3 := ⟨fun u v => ⟨u.x + v.x, u.y + v.y, u.z + v.z⟩⟩

instance : Sub Vector3 := ⟨fun u v => ⟨u.x - v.x, u.y - v.y, u.z - v.z⟩⟩

instance : HMul Vector3 ℝ Vector3 := ⟨fun v a => ⟨v.x * a, v.y * a, v.z * a⟩⟩

@[simp] theorem Vector3.add_x (u v : Vector3) : (u + v).x = u.x + v.x := rfl

@[simp] theorem Vector3.add_y (u v : Vector3) : (u + v).y = u.y + v.y := rfl

@[simp] theorem Vector3.add_z (u v : Vector3) : (u + v).z = u.z + v.z := rfl

@[simp] theorem Vector3.sub_x (u v : Vector3) : (u - v).x = u.x - v.x := rfl

@[simp] theorem Vector3.sub_y (u v : Vector3) : (u - v).y = u.y - v.y := rfl

@[simp] theorem Vector3.sub_z (u v : Vector3) : (u - v).z = u.z - v.z := rfl

@[simp] theorem Vector3.smul_x (v : Vector3) (a : ℝ) : (v * a).x = v.x * a := rfl

@[simp] theorem Vector3.smul_y (v : Vector3) (a : ℝ) : (v * a).y = v.y * a := rfl

@[simp] theorem Vector3.smul_z (v : Vector3) (a : ℝ) : (v * a).z = v.z * a := rfl

theorem Vector3.ext_iff (u v : Vector3) : u = v ↔ u.x = v.x ∧ u.y = v.y ∧ u.z = v.z := by
  constructor
  · intro h; subst h; exact ⟨rfl, rfl, rfl⟩
  · rintro ⟨hx, hy, hz⟩; cases u; cases v; simp_all

/-- Modelled from the spec: gravitational acceleration constant used by
`GravityHandler` (src/gravity.rs is not among the visible sources); the spec
only requires a fixed positive constant `g`. -/
def gravity_g : ℝ := 9.81

/-- Modelled from the spec: `GravityHandler` owns a signed vertical velocity
(positive = downward, since its returned displacement is subtracted from Y). -/
structure GravityHandler where
  velocity : ℝ

/-- Modelled from the spec: `GravityHandler::step(is_falling, elapsed)`
(src/gravity.rs is not among the visible sources). If `is_falling`, integrate
`v += g * dt` and return the displacement `v * dt`; otherwise reset the
velocity to zero and return zero displacement. State passing replaces the
in-place mutation: the result is the new handler paired with the returned
vertical displacement. -/
def GravityHandler.step (gh : GravityHandler) (is_falling : Bool) (elapsed : ℝ) :
    GravityHandler × ℝ :=
  if is_falling then
    let v := gh.velocity + gravity_g * elapsed
    (⟨v⟩, v * elapsed)
  else
    (⟨0⟩, 0)

/-- The world query surface consumed by `Camera::step` (src/world.rs is not
among the visible sources): two point predicates, exactly the interface
camera.rs calls. -/
structure World where
  is_position_free : Vector3 → Bool
  is_position_free_falling : Vector3 → Bool

/-- Travel speed, `const SPEED: f32 = 2.0` in camera.rs. -/
def SPEED : ℝ := 2.0

/-- `enum MotionState` from camera.rs. -/
inductive MotionState where
  | W
  | S
  | A
  | D
  | None

/-- `struct Camera` from camera.rs. `rotation: [f32; 2]` is embedded as a
pair: `.1` is index 0 (yaw), `.2` is index 1 (pitch). The borrowed
`world: &'a World` reference is not stored; the world is passed to `step`
explicitly. -/
structure Camera where
  position : Vector3
  rotation : ℝ × ℝ
  w_pressed : Bool
  s_pressed : Bool
  a_pressed : Bool
  d_pressed : Bool
  gravity_handler : GravityHandler

/-- `Camera::ground_direction_forward` from camera.rs. -/
noncomputable def Camera.ground_direction_forward (c : Camera) : Vector3 :=
  ⟨Real.cos c.rotation.1, 0, Real.sin c.rotation.1⟩

/-- `Camera::ground_direction_right` from camera.rs. -/
noncomputable def Camera.ground_direction_right (c : Camera) : Vector3 :=
  ⟨Real.sin c.rotation.1, 0, -Real.cos c.rotation.1⟩

/-- The `next_pos` candidate accumulated in `Camera::step` (camera.rs lines
63-82): starting from the current position, each active motion flag adds or
subtracts the ground direction times `amplitude = SPEED * elapsed`. -/
noncomputable def Camera.next_pos (c : Camera) (elapsed : ℝ) : Vector3 :=
  let f := c.ground_direction_forward
  let l := c.ground_direction_right
  let amplitude := SPEED * elapsed
  let p := c.position
  let p := if c.w_pressed then p + f * amplitude else p
  let p := if c.s_pressed then p - f * amplitude else p
  let p := if c.d_pressed then p + l * amplitude else p
  if c.a_pressed then p - l * amplitude else p

/-- The `next_pos_amplified` look-ahead accumulated in `Camera::step`
(camera.rs lines 63-82): same as `next_pos` but every contribution is
additionally scaled by the fixed multiplier `ratio = 10`. -/
noncomputable def Camera.next_pos_amplified (c : Camera) (elapsed : ℝ) : Vector3 :=
  let f := c.ground_direction_forward
  let l := c.ground_direction_right
  let amplitude := SPEED * elapsed
  let p := c.position
  let p := if c.w_pressed then p + f * amplitude * (10 : ℝ) else p
  let p := if c.s_pressed then p - f * amplitude * (10 : ℝ) else p
  let p := if c.d_pressed then p + l * amplitude * (10 : ℝ) else p
  if c.a_pressed then p - l * amplitude * (10 : ℝ) else p

/-- `Camera::step(elapsed)` from camera.rs (lines 59-97). The amplified
look-ahead point is queried for obstruction and free-fall; the gravity
handler is stepped unconditionally and its displacement subtracted from the
candidate Y; the candidate is committed only when `is_free` holds. -/
noncomputable def Camera.step (c : Camera) (w : World) (elapsed : ℝ) : Camera :=
  let np := c.next_pos elapsed
  let npa := c.next_pos_amplified elapsed
  let is_free := w.is_position_free npa
  let is_falling := w.is_position_free_falling npa
  let g := c.gravity_handler.step is_falling elapsed
  let np := { np with y := np.y - g.2 }
  { c with
    gravity_handler := g.1
    position := if is_free then np else c.position }

/-- `Camera::toggle_state` from camera.rs (lines 99-107). -/
def Camera.toggle_state (c : Camera) (state : MotionState) : Camera :=
  match state with
  | MotionState.W => { c with w_pressed := !c.w_pressed }
  | MotionState.S => { c with s_pressed := !c.s_pressed }
  | MotionState.A => { c with a_pressed := !c.a_pressed }
  | MotionState.D => { c with d_pressed := !c.d_pressed }
  | MotionState.None => c

/-- `Camera::mousemove(horizontal, vertical, sensitivity)` from camera.rs
(lines 155-164): yaw decreases by `horizontal * sensitivity`; pitch is
incremented by `vertical * sensitivity` only when moving up with current
pitch below `PI * 0.5`, or moving down with current pitch above `-PI * 0.5`. -/
noncomputable def Camera.mousemove (c : Camera) (horizontal vertical sensitivity : ℝ) : Camera :=
  let yaw := c.rotation.1 - horizontal * sensitivity
  let pitch :=
    if vertical > 0 ∧ c.rotation.2 < Real.pi * 0.5 then
      c.rotation.2 + vertical * sensitivity
    else if vertical < 0 ∧ c.rotation.2 > -(Real.pi * 0.5) then
      c.rotation.2 + vertical * sensitivity
    else
      c.rotation.2
  { c with rotation := (yaw, pitch) }

/-! ## cubes_to_draw.rs

The cube positions in this module are `[f32; 3]` arrays compared for
equality; they are embedded as exact rational triples so the definitions
stay executable. -/

/-- Position triple used by the cubes-to-draw module (`[f32; 3]` /
`Vector3::as_array` in the source). -/
def QVec : Type := ℚ × ℚ × ℚ

instance : DecidableEq QVec := instDecidableEqProd

/-- Modelled from the spec: the `Cube` data carried into a render instance
(src/cube.rs is not among the visible sources); only its position is
consumed by cubes_to_draw.rs. -/
structure CubeData where
  position : QVec

/-- Modelled from the spec: `CubeInstance` (src/graphics/cube.rs is not among
the visible sources); cubes_to_draw.rs reads its `position()` and writes its
selection flag via `set_is_selected`. -/
structure CubeInstance where
  position : QVec
  is_selected : Bool

/-- `CubeInstance::new(c)`: a fresh, unselected render instance at the
cube's position. -/
def CubeInstance.new (c : CubeData) : CubeInstance :=
  ⟨c.position, false⟩

/-- Modelled from the spec: a `Chunk` as consumed by
`CubesToDraw::add_chunk` — a nested layer/row grid of optional cubes
(src/chunk.rs is not among the visible sources). -/
structure Chunk where
  cubes : List (List (List (Option CubeData)))

/-- `struct CubesToDraw` from cubes_to_draw.rs. -/
structure CubesToDraw where
  cubes_to_draw : List CubeInstance
  selected_cube_index : Option Nat

/-- `CubesToDraw::new` from cubes_to_draw.rs. -/
def CubesToDraw.new : CubesToDraw :=
  ⟨[], none⟩

/-- `CubesToDraw::set_cube_to_draw` from cubes_to_draw.rs. -/
def CubesToDraw.set_cube_to_draw (s : CubesToDraw) (l : List CubeInstance) : CubesToDraw :=
  { s with cubes_to_draw := l }

/-- `CubesToDraw::add_cube` from cubes_to_draw.rs: push a new instance. -/
def CubesToDraw.add_cube (s : CubesToDraw) (c : CubeData) : CubesToDraw :=
  { s with cubes_to_draw := s.cubes_to_draw ++ [CubeInstance.new c] }

/-- `Vec::swap_remove(i)`: replace element `i` with the last element and pop
the last; identity when the list is empty. -/
def swapRemove {α : Type} (l : List α) (i : Nat) : List α :=
  match l.getLast? with
  | none => l
  | some last => (l.set i last).dropLast

/-- `CubesToDraw::remove_cube` from cubes_to_draw.rs: find the first index
whose instance sits at `p`; if present, clear the selection index when it
pointed there, then swap-remove the instance. -/
def CubesToDraw.remove_cube (s : CubesToDraw) (p : QVec) : CubesToDraw :=
  match s.cubes_to_draw.findIdx? (fun ci => decide (ci.position = p)) with
  | none => s
  | some i =>
    { cubes_to_draw := swapRemove s.cubes_to_draw i
      selected_cube_index :=
        if s.selected_cube_index = some i then none else s.selected_cube_index }

/-- `CubesToDraw::set_selected_cube` from cubes_to_draw.rs: the body starts
with a bare `return;`, so the unselect/select code below it is unreachable
and the state is returned unchanged. -/
def CubesToDraw.set_selected_cube (s : CubesToDraw) (selected_cube : Option QVec) : CubesToDraw :=
  s

/-- `CubesToDraw::add_chunk` from cubes_to_draw.rs: `add_cube` on every
`Some` cube of the chunk grid, in order. -/
def CubesToDraw.add_chunk (s : CubesToDraw) (ch : Chunk) : CubesToDraw :=
  List.foldl
    (fun s layer =>
      List.foldl
        (fun s row =>
          List.foldl
            (fun s cube =>
              match cube with
              | some c => CubesToDraw.add_cube s c
              | none => s)
            s row)
        s layer)
    s ch.cubes

/-- One call of the public mutating API of `CubesToDraw`. -/
inductive CubesOp where
  | set_cube_to_draw (l : List CubeInstance)
  | add_cube (c : CubeData)
  | remove_cube (p : QVec)
  | set_selected_cube (arg : Option QVec)
  | add_chunk (ch : Chunk)

/-- Interpret one `CubesOp` on a state. -/
def CubesToDraw.apply (s : CubesToDraw) (op : CubesOp) : CubesToDraw :=
  match op with
  | CubesOp.set_cube_to_draw l => s.set_cube_to_draw l
  | CubesOp.add_cube c => s.add_cube c
  | CubesOp.remove_cube p => s.remove_cube p
  | CubesOp.set_selected_cube arg => s.set_selected_cube arg
  | CubesOp.add_chunk ch => s.add_chunk ch

/-- Run a sequence of API calls from a state. -/
def CubesToDraw.run (s : CubesToDraw) (ops : List CubesOp) : CubesToDraw :=
  List.foldl CubesToDraw.apply s ops

/-! ## graphics/font.rs -/

/-- `enum GLChar` from src/graphics/font.rs. -/
inductive GLChar where
  | A | B | C | D | E | F | G | H | I | J | K | L | M
  | N | O | P | Q | R | S | T | U | V | W | X | Y | Z
  | DOT | DOUBLEPOINT | COMMA

/-- `GLChar::from_char` from src/graphics/font.rs: a match on the character
whose catch-all arm panics; the panic is embedded as `none`, each listed arm
as `some`. The if-chain realises the match arms in source order. -/
def GLChar.from_char (c : Char) : Option GLChar :=
  if c = 'a' then some GLChar.A
  else if c = 'b' then some GLChar.B
  else if c = 'c' then some GLChar.C
  else if c = 'd' then some GLChar.D
  else if c = 'e' then some GLChar.E
  else if c = 'f' then some GLChar.F
  else if c = 'g' then some GLChar.G
  else if c = 'h' then some GLChar.H
  else if c = 'i' then some GLChar.I
  else if c = 'j' then some GLChar.J
  else if c = 'k' then some GLChar.K
  else if c = 'l' then some GLChar.L
  else if c = 'm' then some GLChar.M
  else if c = 'n' then some GLChar.N
  else if c = 'o' then some GLChar.O
  else if c = 'p' then some GLChar.P
  else if c = 'q' then some GLChar.Q
  else if c = 'r' then some GLChar.R
  else if c = 's' then some GLChar.S
  else if c = 't' then some GLChar.T
  else if c = 'u' then some GLChar.U
  else if c = 'v' then some GLChar.V
  else if c = 'w' then some GLChar.W
  else if c = 'x' then some GLChar.X
  else if c = 'y' then some GLChar.Y
  else if c = 'z' then some GLChar.Z
  else if c = '.' then some GLChar.DOT
  else if c = ':' then some GLChar.DOUBLEPOINT
  else if c = ',' then some GLChar.COMMA
  else none

/-! ## Helper lemmas -/

/-- The candidate position never moves vertically: both ground directions
have a zero y component. -/
theorem Camera.next_pos_y (c : Camera) (elapsed : ℝ) :
    (c.next_pos elapsed).y = c.position.y := by
  unfold Camera.next_pos Camera.ground_direction_forward Camera.ground_direction_right
  cases c.w_pressed <;> cases c.s_pressed <;> cases c.d_pressed <;> cases c.a_pressed <;> simp

/-- With all motion flags off, the candidate is the current position. -/
theorem Camera.next_pos_of_no_flags (c : Camera) (elapsed : ℝ)
    (hw : c.w_pressed = false) (hs : c.s_pressed = false)
    (ha : c.a_pressed = false) (hd : c.d_pressed = false) :
    c.next_pos elapsed = c.position := by
  unfold Camera.next_pos
  simp [hw, hs, ha, hd]

/-- The gravity constant is positive. -/
theorem gravity_g_pos : 0 < gravity_g := by norm_num [gravity_g]

/-! ## Claims -/

/-- C1: for every camera state and elapsed duration, if the world reports the
amplified look-ahead point obstructed (`is_position_free` returns `false`),
then `step` leaves the position entirely unchanged — including the vertical
coordinate, whatever the free-fall query answers. -/
theorem C1_blocked_step_keeps_position (c : Camera) (w : World) (elapsed : ℝ)
    (h : w.is_position_free (c.next_pos_amplified elapsed) = false) :
    (c.step w elapsed).position = c.position := by
  simp [Camera.step, h]

def c1cam : Camera :=
  ⟨⟨0, 5, 0⟩, (0, 0), true, false, false, false, ⟨0⟩⟩

def c1world : World :=
  ⟨fun _ => false, fun _ => true⟩

/-- C1 witness: a camera moving forward against a fully obstructed,
free-falling world keeps its position over one step. -/
theorem C1_blocked_step_keeps_position_witness :
    c1world.is_position_free (c1cam.next_pos_amplified 1) = false ∧
    (c1cam.step c1world 1).position = c1cam.position :=
  ⟨rfl, C1_blocked_step_keeps_position c1cam c1world 1 rfl⟩

/-- C4: when the world reports the amplified look-ahead point as not
free-falling and the obstruction check passes, the gravity step returns a
zero displacement and the committed position keeps the Y coordinate. -/
theorem C4_not_falling_keeps_y (c : Camera) (w : World) (elapsed : ℝ)
    (hfall : w.is_position_free_falling (c.next_pos_amplified elapsed) = false)
    (hfree : w.is_position_free (c.next_pos_amplified elapsed) = true) :
    (c.gravity_handler.step false elapsed).2 = 0 ∧
    (c.step w elapsed).position.y = c.position.y := by
  refine ⟨rfl, ?_⟩
  simp [Camera.step, hfall, hfree, GravityHandler.step, Camera.next_pos_y]

def c4cam : Camera :=
  ⟨⟨1, 7, 2⟩, (0, 0), false, true, false, false, ⟨3⟩⟩

def c4world : World :=
  ⟨fun _ => true, fun _ => false⟩

/-- C4 witness: a free, supported world produces a zero gravity displacement
and an unchanged Y coordinate, here with a nonzero stored velocity. -/
theorem C4_not_falling_keeps_y_witness :
    c4world.is_position_free_falling (c4cam.next_pos_amplified 1) = false ∧
    c4world.is_position_free (c4cam.next_pos_amplified 1) = true ∧
    (c4cam.gravity_handler.step false 1).2 = 0 ∧
    (c4cam.step c4world 1).position.y = c4cam.position.y :=
  ⟨rfl, rfl, (C4_not_falling_keeps_y c4cam c4world 1 rfl rfl).1,
    (C4_not_falling_keeps_y c4cam c4world 1 rfl rfl).2⟩

/-- C5: the gravity handler is advanced with the free-fall query result and
the elapsed time in every `step`, independently of the obstruction check: the
resulting handler equals the stepped handler, and coincides with the handler
obtained in a world whose obstruction query rejects every point. -/
theorem C5_gravity_advanced_regardless (c : Camera) (w : World) (elapsed : ℝ) :
    (c.step w elapsed).gravity_handler =
      (c.gravity_handler.step
        (w.is_position_free_falling (c.next_pos_amplified elapsed)) elapsed).1 ∧
    (c.step w elapsed).gravity_handler =
      (c.step { w with is_position_free := fun _ => false } elapsed).gravity_handler := by
  constructor <;> simp [Camera.step]

/-- C6: the displacement of the amplified look-ahead point from the current
position is exactly 10 times the true candidate displacement, and the true
candidate displacement is the plain (unnormalized) sum of the contributions
of the active flags. -/
theorem C6_amplified_is_ten_times (c : Camera) (elapsed : ℝ) :
    c.next_pos_amplified elapsed - c.position =
      (c.next_pos elapsed - c.position) * (10 : ℝ) ∧
    c.next_pos elapsed =
      c.position
        + (if c.w_pressed then c.ground_direction_forward * (SPEED * elapsed)
            else (⟨0, 0, 0⟩ : Vector3))
        - (if c.s_pressed then c.ground_direction_forward * (SPEED * elapsed)
            else (⟨0, 0, 0⟩ : Vector3))
        + (if c.d_pressed then c.ground_direction_right * (SPEED * elapsed)
            else (⟨0, 0, 0⟩ : Vector3))
        - (if c.a_pressed then c.ground_direction_right * (SPEED * elapsed)
            else (⟨0, 0, 0⟩ : Vector3)) := by
  constructor
  · unfold Camera.next_pos Camera.next_pos_amplified
    cases c.w_pressed <;> cases c.s_pressed <;> cases c.d_pressed <;> cases c.a_pressed <;>
      (simp [Vector3.ext_iff]; try refine ⟨?_, ?_, ?_⟩) <;> ring
  · unfold Camera.next_pos
    cases c.w_pressed <;> cases c.s_pressed <;> cases c.d_pressed <;> cases c.a_pressed <;>
      (simp [Vector3.ext_iff]; try refine ⟨?_, ?_, ?_⟩) <;> ring

/-- C7: toggling the same motion direction twice restores the full camera
state, and toggling `None` changes nothing. -/
theorem C7_toggle_twice_restores (c : Camera) (m : MotionState) :
    (c.toggle_state m).toggle_state m = c ∧ c.toggle_state MotionState.None = c := by
  refine ⟨?_, rfl⟩
  cases m <;> simp [Camera.toggle_state]

noncomputable def c8cam : Camera :=
  ⟨⟨4, 10, 3⟩, (Real.pi, 0), true, false, false, false, ⟨0⟩⟩

def c8world : World :=
  ⟨fun _ => true, fun _ => false⟩

/-- C8: from position (4, 10, 3) with yaw = π, pitch = 0, only the forward
flag set, elapsed = 0.5 s, in a free and not-falling world, one `step`
decreases X by exactly SPEED * 0.5 and leaves Y and Z unchanged. -/
theorem C8_forward_scenario :
    (c8cam.step c8world (0.5 : ℝ)).position.x = c8cam.position.x - SPEED * (0.5 : ℝ) ∧
    (c8cam.step c8world (0.5 : ℝ)).position.y = c8cam.position.y ∧
    (c8cam.step c8world (0.5 : ℝ)).position.z = c8cam.position.z := by
  refine ⟨?_, ?_, ?_⟩ <;>
    simp [c8cam, c8world, Camera.step, Camera.next_pos, Camera.next_pos_amplified,
      Camera.ground_direction_forward, Camera.ground_direction_right,
      GravityHandler.step, SPEED] <;>
  norm_num

def c2cam : Camera :=
  ⟨⟨0, 0, 0⟩, (0, 0), false, false, false, false, ⟨0⟩⟩

/-- A single upward mousemove from pitch 0 with a large delta lands at
pitch 10: the guard only inspects the current pitch, not the result. -/
theorem c2cam_mousemove_pitch : (c2cam.mousemove 0 1 10).rotation.2 = 10 := by
  have hp : (0 : ℝ) < Real.pi * 0.5 := by positivity
  simp [Camera.mousemove, c2cam, hp]

/-- C2 counterexample: the camera with pitch 0 has its pitch strictly inside
(-π/2, π/2), yet one `mousemove(0, 1, 10)` call produces pitch 10, which is
outside the interval. -/
theorem C2_counterexample_pitch_escapes :
    (-(Real.pi / 2) < c2cam.rotation.2 ∧ c2cam.rotation.2 < Real.pi / 2) ∧
    ¬ (-(Real.pi / 2) < (c2cam.mousemove 0 1 10).rotation.2 ∧
        (c2cam.mousemove 0 1 10).rotation.2 < Real.pi / 2) := by
  have hpi := Real.pi_le_four
  have hpos := Real.pi_pos
  constructor
  · constructor
    · show -(Real.pi / 2) < 0
      linarith
    · show (0 : ℝ) < Real.pi / 2
      linarith
  · rw [c2cam_mousemove_pitch]
    rintro ⟨-, h⟩
    linarith

/-- One `mousemove` keeps the pitch inside the interval widened by `B`, as
long as the sensitivity is nonnegative and the applied pitch delta is at
most `B` in magnitude: the guards bound the pre-state by the unwidened
endpoints, so the post-state overshoots by less than `B`. -/
theorem mousemove_pitch_bounded_step (c : Camera) (h v s B : ℝ)
    (hs : 0 ≤ s) (hvs : |v * s| ≤ B)
    (hlo : -(Real.pi / 2) - B < c.rotation.2)
    (hhi : c.rotation.2 < Real.pi / 2 + B) :
    -(Real.pi / 2) - B < (c.mousemove h v s).rotation.2 ∧
    (c.mousemove h v s).rotation.2 < Real.pi / 2 + B := by
  obtain ⟨hvs1, hvs2⟩ := abs_le.mp hvs
  have hhalf : Real.pi * 0.5 = Real.pi / 2 := by ring
  simp only [Camera.mousemove]
  split_ifs with h1 h2
  · have hnn : 0 ≤ v * s := mul_nonneg h1.1.le hs
    have := h1.2
    constructor <;> (try simp) <;> linarith
  · have hnp : v * s ≤ 0 := mul_nonpos_iff.mpr (Or.inr ⟨h2.1.le, hs⟩)
    have := h2.2
    constructor <;> (try simp) <;> linarith
  · exact ⟨hlo, hhi⟩

/-- Folding any sequence of `mousemove` calls with nonnegative sensitivities
and pitch deltas bounded by `B` keeps the pitch inside the widened interval. -/
theorem mousemove_fold_pitch_bounded (B : ℝ) :
    ∀ (calls : List (ℝ × ℝ × ℝ)) (c : Camera),
      (∀ t ∈ calls, 0 ≤ t.2.2 ∧ |t.2.1 * t.2.2| ≤ B) →
      -(Real.pi / 2) - B < c.rotation.2 →
      c.rotation.2 < Real.pi / 2 + B →
      -(Real.pi / 2) - B <
          (List.foldl (fun s t => s.mousemove t.1 t.2.1 t.2.2) c calls).rotation.2 ∧
        (List.foldl (fun s t => s.mousemove t.1 t.2.1 t.2.2) c calls).rotation.2 <
          Real.pi / 2 + B := by
  intro calls
  induction calls with
  | nil => exact fun c _ hlo hhi => ⟨hlo, hhi⟩
  | cons t ts ih =>
    intro c hcalls hlo hhi
    have ht := hcalls t (List.mem_cons_self t ts)
    have hstep := mousemove_pitch_bounded_step c t.1 t.2.1 t.2.2 B ht.1 ht.2 hlo hhi
    exact ih (c.mousemove t.1 t.2.1 t.2.2)
      (fun u hu => hcalls u (List.mem_cons_of_mem t hu)) hstep.1 hstep.2

/-- C2 amended: starting from a pitch strictly inside (-π/2, π/2), a finite
sequence of `mousemove` calls whose sensitivities are nonnegative and whose
per-call pitch deltas `vertical * sensitivity` are bounded by `B` in
magnitude leaves the resulting pitch strictly inside (-π/2 - B, π/2 + B);
the original unwidened interval is not preserved (see the counterexample). -/
theorem C2_amended_pitch_bounded (c : Camera) (calls : List (ℝ × ℝ × ℝ)) (B : ℝ)
    (hB : 0 ≤ B)
    (hcalls : ∀ t ∈ calls, 0 ≤ t.2.2 ∧ |t.2.1 * t.2.2| ≤ B)
    (hlo : -(Real.pi / 2) < c.rotation.2)
    (hhi : c.rotation.2 < Real.pi / 2) :
    -(Real.pi / 2) - B <
        (List.foldl (fun s t => s.mousemove t.1 t.2.1 t.2.2) c calls).rotation.2 ∧
      (List.foldl (fun s t => s.mousemove t.1 t.2.1 t.2.2) c calls).rotation.2 <
        Real.pi / 2 + B := by
  exact mousemove_fold_pitch_bounded B calls c hcalls (by linarith) (by linarith)

/-- C2 witness: one upward call with sensitivity 1 and delta bound 1 from
pitch 0 stays inside (-π/2 - 1, π/2 + 1). -/
theorem C2_amended_pitch_bounded_witness :
    (∀ t ∈ [((1 : ℝ), (1 : ℝ), (1 : ℝ))], 0 ≤ t.2.2 ∧ |t.2.1 * t.2.2| ≤ 1) ∧
    (-(Real.pi / 2) < c2cam.rotation.2 ∧ c2cam.rotation.2 < Real.pi / 2) ∧
    (-(Real.pi / 2) - 1 <
        (List.foldl (fun s t => s.mousemove t.1 t.2.1 t.2.2) c2cam
          [((1 : ℝ), (1 : ℝ), (1 : ℝ))]).rotation.2 ∧
      (List.foldl (fun s t => s.mousemove t.1 t.2.1 t.2.2) c2cam
          [((1 : ℝ), (1 : ℝ), (1 : ℝ))]).rotation.2 < Real.pi / 2 + 1) := by
  have hcalls : ∀ t ∈ [((1 : ℝ), (1 : ℝ), (1 : ℝ))], 0 ≤ t.2.2 ∧ |t.2.1 * t.2.2| ≤ 1 := by
    simp
  have hlo : -(Real.pi / 2) < c2cam.rotation.2 := by
    show -(Real.pi / 2) < 0
    have := Real.pi_pos
    linarith
  have hhi : c2cam.rotation.2 < Real.pi / 2 := by
    show (0 : ℝ) < Real.pi / 2
    positivity
  exact ⟨hcalls, ⟨hlo, hhi⟩,
    C2_amended_pitch_bounded c2cam [((1 : ℝ), (1 : ℝ), (1 : ℝ))] 1 zero_le_one hcalls hlo hhi⟩

def c3cam : Camera :=
  ⟨⟨0, 10, 0⟩, (0, 0), false, false, false, false, ⟨0⟩⟩

def c3world : World :=
  ⟨fun _ => true, fun _ => true⟩

/-- C3 counterexample: at elapsed duration 0 (which satisfies dt ≥ 0), with
all flags off and the world free and free-falling everywhere, `step` leaves
the Y coordinate exactly unchanged, so it does not strictly decrease. -/
theorem C3_counterexample_zero_dt :
    (0 : ℝ) ≤ 0 ∧
    c3cam.w_pressed = false ∧ c3cam.s_pressed = false ∧
    c3cam.a_pressed = false ∧ c3cam.d_pressed = false ∧
    c3world.is_position_free (c3cam.next_pos_amplified 0) = true ∧
    c3world.is_position_free_falling (c3cam.next_pos_amplified 0) = true ∧
    ¬ ((c3cam.step c3world 0).position.y < c3cam.position.y) := by
  refine ⟨le_refl 0, rfl, rfl, rfl, rfl, rfl, rfl, ?_⟩
  simp [Camera.step, c3world, GravityHandler.step, c3cam, Camera.next_pos,
    Camera.next_pos_amplified]

/-- C3 amended: for strictly positive elapsed durations, from a state whose
gravity velocity is nonnegative (as in a freshly created camera), with all
four motion flags off and the world reporting the queried point free and
free-falling, `step` strictly decreases Y and leaves X and Z unchanged. At
dt = 0 the displacement is zero (see the counterexample), and a negative
stored velocity (a rising jump) would raise Y instead. -/
theorem C3_amended_y_decreases (c : Camera) (w : World) (elapsed : ℝ)
    (hdt : 0 < elapsed)
    (hv : 0 ≤ c.gravity_handler.velocity)
    (hw : c.w_pressed = false) (hs : c.s_pressed = false)
    (ha : c.a_pressed = false) (hd : c.d_pressed = false)
    (hfree : w.is_position_free (c.next_pos_amplified elapsed) = true)
    (hfall : w.is_position_free_falling (c.next_pos_amplified elapsed) = true) :
    (c.step w elapsed).position.y < c.position.y ∧
    (c.step w elapsed).position.x = c.position.x ∧
    (c.step w elapsed).position.z = c.position.z := by
  have hnp := Camera.next_pos_of_no_flags c elapsed hw hs ha hd
  have hdisp : 0 < (c.gravity_handler.velocity + gravity_g * elapsed) * elapsed :=
    mul_pos (add_pos_of_nonneg_of_pos hv (mul_pos gravity_g_pos hdt)) hdt
  refine ⟨?_, ?_, ?_⟩ <;>
    simp [Camera.step, hfree, hfall, GravityHandler.step, hnp] <;>
  linarith

/-- C3 witness: one second of free fall from the fresh state strictly lowers
Y and fixes X and Z. -/
theorem C3_amended_y_decreases_witness :
    (0 : ℝ) < 1 ∧ 0 ≤ c3cam.gravity_handler.velocity ∧
    c3world.is_position_free (c3cam.next_pos_amplified 1) = true ∧
    c3world.is_position_free_falling (c3cam.next_pos_amplified 1) = true ∧
    ((c3cam.step c3world 1).position.y < c3cam.position.y ∧
      (c3cam.step c3world 1).position.x = c3cam.position.x ∧
      (c3cam.step c3world 1).position.z = c3cam.position.z) :=
  ⟨one_pos, le_refl 0, rfl, rfl,
    C3_amended_y_decreases c3cam c3world 1 one_pos (le_refl 0) rfl rfl rfl rfl rfl rfl⟩

/-- Folding a selection-preserving function keeps `selected_cube_index`
at `none`. -/
theorem foldl_selected_none {α : Type} (f : CubesToDraw → α → CubesToDraw)
    (hf : ∀ s a, s.selected_cube_index = none → (f s a).selected_cube_index = none) :
    ∀ (l : List α) (s : CubesToDraw), s.selected_cube_index = none →
      (List.foldl f s l).selected_cube_index = none := by
  intro l
  induction l with
  | nil => exact fun s hsel => hsel
  | cons a t ih => exact fun s hsel => ih (f s a) (hf s a hsel)

/-- Every single API call keeps `selected_cube_index` at `none`. -/
theorem apply_selected_none (s : CubesToDraw) (op : CubesOp)
    (hsel : s.selected_cube_index = none) :
    (s.apply op).selected_cube_index = none := by
  cases op with
  | set_cube_to_draw l => exact hsel
  | add_cube c => exact hsel
  | remove_cube p =>
    show (s.remove_cube p).selected_cube_index = none
    unfold CubesToDraw.remove_cube
    rcases hfind : s.cubes_to_draw.findIdx? (fun ci => decide (ci.position = p)) with _ | i
    · rw [hfind]
      exact hsel
    · rw [hfind]
      simp [hsel]
  | set_selected_cube arg => exact hsel
  | add_chunk ch =>
    show (s.add_chunk ch).selected_cube_index = none
    unfold CubesToDraw.add_chunk
    refine foldl_selected_none _ ?_ _ s hsel
    intro s1 layer h1
    refine foldl_selected_none _ ?_ _ s1 h1
    intro s2 row h2
    refine foldl_selected_none _ ?_ _ s2 h2
    intro s3 cube h3
    cases cube with
    | none => exact h3
    | some c => exact h3

/-- C9: `set_selected_cube` returns its state unchanged (its body starts with
a bare `return;`), and consequently no sequence of API calls starting from
`CubesToDraw::new()` ever makes `selected_cube_index` anything but `None`. -/
theorem C9_selected_cube_stays_none :
    (∀ (s : CubesToDraw) (arg : Option QVec), s.set_selected_cube arg = s) ∧
    ∀ ops : List CubesOp, (CubesToDraw.new.run ops).selected_cube_index = none := by
  refine ⟨fun s arg => rfl, fun ops => ?_⟩
  exact foldl_selected_none CubesToDraw.apply apply_selected_none ops CubesToDraw.new rfl

/-- Two characters with the same code point are equal. -/
theorem char_toNat_inj (a b : Char) (h : a.toNat = b.toNat) : a = b :=
  Char.eq_of_val_eq (UInt32.ext h)

/-- Character order is code-point order. -/
theorem char_le_toNat {a b : Char} (h : a ≤ b) : a.toNat ≤ b.toNat := h

/-- C10: `GLChar::from_char(c)` returns a variant exactly when `c` is a
lowercase ASCII letter in 'a'..'z' or one of '.', ':', ','; every other
character (uppercase letters and digits included) reaches the panicking
catch-all arm, embedded as `none`. -/
theorem C10_from_char_domain (c : Char) :
    (GLChar.from_char c).isSome = true ↔
      (('a' ≤ c ∧ c ≤ 'z') ∨ c = '.' ∨ c = ':' ∨ c = ',') := by
  constructor
  · intro hsome
    by_contra hn
    have hrange : ¬('a' ≤ c ∧ c ≤ 'z') := fun h => hn (Or.inl h)
    have hdot : c ≠ '.' := fun h => hn (Or.inr (Or.inl h))
    have hcolon : c ≠ ':' := fun h => hn (Or.inr (Or.inr (Or.inl h)))
    have hcomma : c ≠ ',' := fun h => hn (Or.inr (Or.inr (Or.inr h)))
    have key : ∀ d : Char, 97 ≤ d.toNat → d.toNat ≤ 122 → c ≠ d := by
      intro d h1 h2 heq
      subst heq
      exact hrange ⟨h1, h2⟩
    unfold GLChar.from_char at hsome
    rw [if_neg (key 'a' (by decide) (by decide)), if_neg (key 'b' (by decide) (by decide)),
      if_neg (key 'c' (by decide) (by decide)), if_neg (key 'd' (by decide) (by decide)),
      if_neg (key 'e' (by decide) (by decide)), if_neg (key 'f' (by decide) (by decide)),
      if_neg (key 'g' (by decide) (by decide)), if_neg (key 'h' (by decide) (by decide)),
      if_neg (key 'i' (by decide) (by decide)), if_neg (key 'j' (by decide) (by decide)),
      if_neg (key 'k' (by decide) (by decide)), if_neg (key 'l' (by decide) (by decide)),
      if_neg (key 'm' (by decide) (by decide)), if_neg (key 'n' (by decide) (by decide)),
      if_neg (key 'o' (by decide) (by decide)), if_neg (key 'p' (by decide) (by decide)),
      if_neg (key 'q' (by decide) (by decide)), if_neg (key 'r' (by decide) (by decide)),
      if_neg (key 's' (by decide) (by decide)), if_neg (key 't' (by decide) (by decide)),
      if_neg (key 'u' (by decide) (by decide)), if_neg (key 'v' (by decide) (by decide)),
      if_neg (key 'w' (by decide) (by decide)), if_neg (key 'x' (by decide) (by decide)),
      if_neg (key 'y' (by decide) (by decide)), if_neg (key 'z' (by decide) (by decide)),
      if_neg hdot, if_neg hcolon, if_neg hcomma] at hsome
    simp at hsome
  · intro hin
    rcases hin with ⟨hlo, hhi⟩ | h | h | h
    · have h97 : 97 ≤ c.toNat := char_le_toNat hlo
      have h122 : c.toNat ≤ 122 := char_le_toNat hhi
      have hcases : c.toNat = 97 ∨ c.toNat = 98 ∨ c.toNat = 99 ∨ c.toNat = 100 ∨
          c.toNat = 101 ∨ c.toNat = 102 ∨ c.toNat = 103 ∨ c.toNat = 104 ∨
          c.toNat = 105 ∨ c.toNat = 106 ∨ c.toNat = 107 ∨ c.toNat = 108 ∨
          c.toNat = 109 ∨ c.toNat = 110 ∨ c.toNat = 111 ∨ c.toNat = 112 ∨
          c.toNat = 113 ∨ c.toNat = 114 ∨ c.toNat = 115 ∨ c.toNat = 116 ∨
          c.toNat = 117 ∨ c.toNat = 118 ∨ c.toNat = 119 ∨ c.toNat = 120 ∨
          c.toNat = 121 ∨ c.toNat = 122 := by omega
      rcases hcases with h|h|h|h|h|h|h|h|h|h|h|h|h|h|h|h|h|h|h|h|h|h|h|h|h|h
      · rw [char_toNat_inj c 'a' h]; decide
      · rw [char_toNat_inj c 'b' h]; decide
      · rw [char_toNat_inj c 'c' h]; decide
      · rw [char_toNat_inj c 'd' h]; decide
      · rw [char_toNat_inj c 'e' h]; decide
      · rw [char_toNat_inj c 'f' h]; decide
      · rw [char_toNat_inj c 'g' h]; decide
      · rw [char_toNat_inj c 'h' h]; decide
      · rw [char_toNat_inj c 'i' h]; decide
      · rw [char_toNat_inj c 'j' h]; decide
      · rw [char_toNat_inj c 'k' h]; decide
      · rw [char_toNat_inj c 'l' h]; decide
      · rw [char_toNat_inj c 'm' h]; decide
      · rw [char_toNat_inj c 'n' h]; decide
      · rw [char_toNat_inj c 'o' h]; decide
      · rw [char_toNat_inj c 'p' h]; decide
      · rw [char_toNat_inj c 'q' h]; decide
      · rw [char_toNat_inj c 'r' h]; decide
      · rw [char_toNat_inj c 's' h]; decide
      · rw [char_toNat_inj c 't' h]; decide
      · rw [char_toNat_inj c 'u' h]; decide
      · rw [char_toNat_inj c 'v' h]; decide
      · rw [char_toNat_inj c 'w' h]; decide
      · rw [char_toNat_inj c 'x' h]; decide
      · rw [char_toNat_inj c 'y' h]; decide
      · rw [char_toNat_inj c 'z' h]; decide
    · subst h; decide
    · subst h; decide
    · subst h; decide

end Crafty
